import Mathlib

/-!
Verification development for the OctaSine audio synthesis core.

Floating-point (`f32`/`f64`) arithmetic from the source is modelled by
exact rational arithmetic (`ℚ`); machine integers by `Nat`/`Int`.
The SIMD packed-double abstraction is modelled at lane width 2
(one stereo frame: lane `l` = left channel, lane `r` = right channel),
matching the semantics of `FallbackPackedDouble` in `src/octasine/src/simd.rs`,
which the wider backends implement contract-identically per frame.
-/

/-- Packed double with two stereo-interleaved lanes (`simd.rs`,
`FallbackPackedDouble`: lane 0 = left, lane 1 = right). -/
structure Pd where
  l : ℚ
  r : ℚ
deriving DecidableEq, Repr

namespace Pd

/-- `SimdPackedDouble::new`: broadcast a scalar to both lanes. -/
def new (value : ℚ) : Pd := ⟨value, value⟩

/-- `SimdPackedDouble::new_zeroed`. -/
def new_zeroed : Pd := ⟨0, 0⟩

/-- `SimdPackedDouble::new_from_pair`. -/
def new_from_pair (l r : ℚ) : Pd := ⟨l, r⟩

/-- Elementwise addition (`impl Add for FallbackPackedDouble`). -/
instance : Add Pd := ⟨fun a b => ⟨a.l + b.l, a.r + b.r⟩⟩

/-- Elementwise subtraction (`impl Sub for FallbackPackedDouble`). -/
instance : Sub Pd := ⟨fun a b => ⟨a.l - b.l, a.r - b.r⟩⟩

/-- Elementwise multiplication (`impl Mul for FallbackPackedDouble`). -/
instance : Mul Pd := ⟨fun a b => ⟨a.l * b.l, a.r * b.r⟩⟩

/-- `SimdPackedDouble::min`: elementwise minimum. -/
def min (a b : Pd) : Pd := ⟨Min.min a.l b.l, Min.min a.r b.r⟩

/-- `SimdPackedDouble::max`: elementwise maximum. -/
def max (a b : Pd) : Pd := ⟨Max.max a.l b.l, Max.max a.r b.r⟩

/-- `SimdPackedDouble::pairwise_horizontal_sum`: both lanes become `l + r`. -/
def pairwise_horizontal_sum (a : Pd) : Pd := ⟨a.l + a.r, a.l + a.r⟩

/-- `SimdPackedDouble::interleave`: even lane from `a`, odd lane from `b`. -/
def interleave (a b : Pd) : Pd := ⟨a.l, b.r⟩

/-- `SimdPackedDouble::any_over_zero`: some lane is strictly positive. -/
def any_over_zero (a : Pd) : Bool := decide (0 < a.l) || decide (0 < a.r)

/-- Both lanes nonnegative. -/
def nonneg (a : Pd) : Prop := 0 ≤ a.l ∧ 0 ≤ a.r

instance (a : Pd) : Decidable a.nonneg := by
  unfold nonneg
  infer_instance

@[simp] theorem add_l (a b : Pd) : (a + b).l = a.l + b.l := rfl
@[simp] theorem add_r (a b : Pd) : (a + b).r = a.r + b.r := rfl
@[simp] theorem sub_l (a b : Pd) : (a - b).l = a.l - b.l := rfl
@[simp] theorem sub_r (a b : Pd) : (a - b).r = a.r - b.r := rfl
@[simp] theorem mul_l (a b : Pd) : (a * b).l = a.l * b.l := rfl
@[simp] theorem mul_r (a b : Pd) : (a * b).r = a.r * b.r := rfl
@[simp] theorem new_l (v : ℚ) : (new v).l = v := rfl
@[simp] theorem new_r (v : ℚ) : (new v).r = v := rfl
@[simp] theorem new_zeroed_l : new_zeroed.l = 0 := rfl
@[simp] theorem new_zeroed_r : new_zeroed.r = 0 := rfl
@[simp] theorem min_l (a b : Pd) : (min a b).l = Min.min a.l b.l := rfl
@[simp] theorem min_r (a b : Pd) : (min a b).r = Min.min a.r b.r := rfl
@[simp] theorem max_l (a b : Pd) : (max a b).l = Max.max a.l b.l := rfl
@[simp] theorem max_r (a b : Pd) : (max a b).r = Max.max a.r b.r := rfl
@[simp] theorem phs_l (a : Pd) : a.pairwise_horizontal_sum.l = a.l + a.r := rfl
@[simp] theorem phs_r (a : Pd) : a.pairwise_horizontal_sum.r = a.l + a.r := rfl
@[simp] theorem interleave_l (a b : Pd) : (interleave a b).l = a.l := rfl
@[simp] theorem interleave_r (a b : Pd) : (interleave a b).r = b.r := rfl

theorem ext_lanes {a b : Pd} (hl : a.l = b.l) (hr : a.r = b.r) : a = b := by
  cases a
  cases b
  simp_all

theorem eq_zeroed_of_nonneg_not_over {a : Pd} (hnn : a.nonneg)
    (h : a.any_over_zero = false) : a = new_zeroed := by
  rcases hnn with ⟨hl, hr⟩
  simp only [any_over_zero, Bool.or_eq_false_iff, decide_eq_false_iff_not, not_lt] at h
  exact ext_lanes (le_antisymm h.1 hl) (le_antisymm h.2 hr)

end Pd

/-! ## Panning helpers (`src/octasine/src/audio/gen/mod.rs`) -/

/-- `linear_panning_factor`: linear per-channel volume used for modulation
output. Source: `((1 - panning).interleave(panning) * 2).min(1)`. -/
def linear_panning_factor (panning : Pd) : Pd :=
  Pd.min ((Pd.new 1 - panning).interleave panning * Pd.new 2) (Pd.new 1)

/-- `mono_mix_factor`: amount of each channel derived from the mono sum.
Source: `(2 * (panning - 0.5) * (-1, 1)).max(0)`. -/
def mono_mix_factor (panning : Pd) : Pd :=
  Pd.max (Pd.new 2 * (panning - Pd.new (1/2)) * Pd.new_from_pair (-1) 1) Pd.new_zeroed

/-- `velocity_factor`: `sensitivity * velocity + (1 - sensitivity)`. -/
def velocity_factor (sensitivity velocity : Pd) : Pd :=
  sensitivity * velocity + (Pd.new 1 - sensitivity)

/-- C9: for every panning value `p` broadcast across lanes, the linear panning
factor equals `min (2*(1-p)) 1` in the left lane and `min (2*p) 1` in the
right lane; in particular `p = 1/2` yields `(1, 1)`, `p = 0` yields `(1, 0)`
and `p = 1` yields `(0, 1)`. -/
theorem c9_linear_panning_factor :
    (∀ p : ℚ, linear_panning_factor (Pd.new p)
      = Pd.new_from_pair (Min.min (2 * (1 - p)) 1) (Min.min (2 * p) 1))
    ∧ linear_panning_factor (Pd.new (1/2)) = Pd.new_from_pair 1 1
    ∧ linear_panning_factor (Pd.new 0) = Pd.new_from_pair 1 0
    ∧ linear_panning_factor (Pd.new 1) = Pd.new_from_pair 0 1 := by
  have hgen : ∀ p : ℚ, linear_panning_factor (Pd.new p)
      = Pd.new_from_pair (Min.min (2 * (1 - p)) 1) (Min.min (2 * p) 1) := by
    intro p
    apply Pd.ext_lanes <;> simp [linear_panning_factor, Pd.new_from_pair, mul_comm]
  refine ⟨hgen, ?_, ?_, ?_⟩ <;> rw [hgen] <;> norm_num [Pd.new_from_pair, min_def]

/-! ## Global pitch bend (`src/octasine/src/audio/mod.rs`) -/

/-- `GlobalPitchBend`: carries the bend factor. -/
structure GlobalPitchBend where
  factor : ℚ
deriving DecidableEq, Repr

namespace GlobalPitchBend

/-- `GlobalPitchBend::default`: factor 0. -/
def default : GlobalPitchBend := ⟨0⟩

/-- `GlobalPitchBend::update_from_midi`: `amount = (msb << 7) | lsb`,
`x = amount - 8192`, positive half scaled by `1/8191`, negative half
by `1/8192`. -/
def update_from_midi (_pb : GlobalPitchBend) (lsb msb : Nat) : GlobalPitchBend :=
  let amount : Nat := (msb <<< 7) ||| lsb
  let x : ℚ := (amount : ℚ) - 8192
  let x := if 0 < x then x * (1 / 8191) else x
  let x := if x < 0 then x * (1 / 8192) else x
  ⟨x⟩

end GlobalPitchBend

/-- For data bytes below 128, `(msb <<< 7) ||| lsb` is `msb * 128 + lsb`. -/
theorem shl_or_eq_arith (lsb msb : Nat) (hl : lsb < 128) :
    (msb <<< 7) ||| lsb = msb * 128 + lsb := by
  have h : msb <<< 7 = 2 ^ 7 * msb := by
    rw [Nat.shiftLeft_eq]
    ring
  have hl' : lsb < 2 ^ 7 := by
    norm_num
    exact hl
  have h2 := Nat.mul_add_lt_is_or (i := 7) hl' msb
  rw [h, ← h2]
  ring

/-- Closed form of the factor set by `update_from_midi`, in terms of the
difference `d = msb * 128 + lsb - 8192`. -/
theorem update_from_midi_factor_eq (pb : GlobalPitchBend) (lsb msb : Nat)
    (hl : lsb < 128) :
    (pb.update_from_midi lsb msb).factor =
      if 0 < ((msb * 128 + lsb : Nat) : ℚ) - 8192
        then (((msb * 128 + lsb : Nat) : ℚ) - 8192) * (1 / 8191)
      else if ((msb * 128 + lsb : Nat) : ℚ) - 8192 < 0
        then (((msb * 128 + lsb : Nat) : ℚ) - 8192) * (1 / 8192)
      else ((msb * 128 + lsb : Nat) : ℚ) - 8192 := by
  simp only [GlobalPitchBend.update_from_midi, shl_or_eq_arith lsb msb hl]
  set d : ℚ := ((msb * 128 + lsb : Nat) : ℚ) - 8192 with hd
  by_cases h1 : 0 < d
  · rw [if_pos h1, if_pos h1, if_neg]
    push_neg
    nlinarith
  · rw [if_neg h1, if_neg h1]

/-- C3: for every pair of MIDI data bytes `lsb, msb < 128`, the updated bend
factor is `d / 8191` when `d = msb*128 + lsb - 8192` is positive and
`d / 8192` when it is negative, and lies in `[-1, 1]`; in particular
`(0, 64)` yields exactly `0`, `(0, 0)` yields exactly `-1`, and
`(127, 127)` yields exactly `1`. -/
theorem c3_pitch_bend_update :
    (∀ pb : GlobalPitchBend, ∀ lsb msb : Nat, lsb < 128 → msb < 128 →
      (0 < ((msb * 128 + lsb : Nat) : ℚ) - 8192 →
        (pb.update_from_midi lsb msb).factor
          = (((msb * 128 + lsb : Nat) : ℚ) - 8192) / 8191)
      ∧ (((msb * 128 + lsb : Nat) : ℚ) - 8192 < 0 →
        (pb.update_from_midi lsb msb).factor
          = (((msb * 128 + lsb : Nat) : ℚ) - 8192) / 8192)
      ∧ (((msb * 128 + lsb : Nat) : ℚ) - 8192 = 0 →
        (pb.update_from_midi lsb msb).factor = 0)
      ∧ -1 ≤ (pb.update_from_midi lsb msb).factor
      ∧ (pb.update_from_midi lsb msb).factor ≤ 1)
    ∧ (GlobalPitchBend.default.update_from_midi 0 64).factor = 0
    ∧ (GlobalPitchBend.default.update_from_midi 0 0).factor = -1
    ∧ (GlobalPitchBend.default.update_from_midi 127 127).factor = 1 := by
  refine ⟨fun pb lsb msb hl hm => ?_,
    by rw [update_from_midi_factor_eq _ 0 64 (by norm_num)]; norm_num,
    by rw [update_from_midi_factor_eq _ 0 0 (by norm_num)]; norm_num,
    by rw [update_from_midi_factor_eq _ 127 127 (by norm_num)]; norm_num⟩
  rw [update_from_midi_factor_eq pb lsb msb hl]
  set d : ℚ := ((msb * 128 + lsb : Nat) : ℚ) - 8192 with hd
  have hub : d ≤ 8191 := by
    have h : (msb * 128 + lsb : Nat) ≤ 16383 := by omega
    have h' : ((msb * 128 + lsb : Nat) : ℚ) ≤ 16383 := by exact_mod_cast h
    rw [hd]
    linarith
  have hlb : -8192 ≤ d := by
    have h' : (0:ℚ) ≤ ((msb * 128 + lsb : Nat) : ℚ) := Nat.cast_nonneg _
    rw [hd]
    linarith
  rcases lt_trichotomy d 0 with hneg | hzero | hpos
  · rw [if_neg (by linarith), if_pos hneg]
    refine ⟨fun h => absurd h (by linarith), fun _ => by ring,
      fun h => absurd h (by linarith), by nlinarith, by nlinarith⟩
  · rw [if_neg (by linarith), if_neg (by linarith)]
    refine ⟨fun h => absurd h (by linarith), fun h => absurd h (by linarith),
      fun _ => hzero, by linarith, by linarith⟩
  · rw [if_pos hpos]
    refine ⟨fun _ => by ring, fun h => absurd h (by linarith),
      fun h => absurd h (by linarith), by nlinarith, by nlinarith⟩

/-- C3 witness: concrete application at `lsb = 0`, `msb = 96`
(`d = 4096 > 0`, factor `4096 / 8191`). -/
theorem c3_pitch_bend_update_witness :
    (GlobalPitchBend.default.update_from_midi 0 96).factor = 4096 / 8191 := by
  have h := (c3_pitch_bend_update.1 GlobalPitchBend.default 0 96
    (by norm_num) (by norm_num)).1 (by norm_num)
  norm_num at h
  exact h

/-! ## Glide (portamento) mode parameter
(`src/octasine/src/parameters/glide_mode.rs`) -/

/-- Rust `str::trim` on strings modelled as character lists: remove leading
and trailing whitespace. -/
def rust_trim (s : List Char) : List Char :=
  ((s.dropWhile Char.isWhitespace).reverse.dropWhile Char.isWhitespace).reverse

/-- Rust `str::to_lowercase` on strings modelled as character lists. -/
def rust_to_lowercase (s : List Char) : List Char := s.map Char.toLower

/-- `GlideMode`: portamento mode. -/
inductive GlideMode where
  | off
  | auto
  | on
deriving DecidableEq, Repr

/-- `impl Display for GlideMode`: the formatted rendering. -/
def GlideMode.display : GlideMode → List Char
  | .off => ['O', 'F', 'F']
  | .auto => ['A', 'U', 'T', 'O']
  | .on => ['O', 'N']

/-- `GlideModeValue`: parameter value wrapper around `GlideMode`. -/
structure GlideModeValue where
  mode : GlideMode
deriving DecidableEq, Repr

namespace GlideModeValue

/-- `GlideModeValue::new_from_text`: trim, lowercase, accept
`off` / `auto` / `always`. -/
def new_from_text (text : List Char) : Option GlideModeValue :=
  let t := rust_to_lowercase (rust_trim text)
  if t = ['o', 'f', 'f'] then some ⟨GlideMode.off⟩
  else if t = ['a', 'u', 't', 'o'] then some ⟨GlideMode.auto⟩
  else if t = ['a', 'l', 'w', 'a', 'y', 's'] then some ⟨GlideMode.on⟩
  else none

/-- `GlideModeValue::get_formatted`: formats through `Display`. -/
def get_formatted (v : GlideModeValue) : List Char := v.mode.display

end GlideModeValue

/-- C10: `new_from_text` succeeds exactly when the trimmed, lowercased input
is `off`, `auto` or `always`; parsing the formatted text round-trips for the
Off and Auto modes but fails (returns `none`) for the On mode, whose
formatted text `ON` is not an accepted input. -/
theorem c10_glide_mode_text_round_trip :
    (∀ s : List Char, (GlideModeValue.new_from_text s).isSome
      ↔ (rust_to_lowercase (rust_trim s) = ['o', 'f', 'f']
          ∨ rust_to_lowercase (rust_trim s) = ['a', 'u', 't', 'o']
          ∨ rust_to_lowercase (rust_trim s) = ['a', 'l', 'w', 'a', 'y', 's']))
    ∧ GlideModeValue.new_from_text (GlideModeValue.get_formatted ⟨GlideMode.off⟩)
        = some ⟨GlideMode.off⟩
    ∧ GlideModeValue.new_from_text (GlideModeValue.get_formatted ⟨GlideMode.auto⟩)
        = some ⟨GlideMode.auto⟩
    ∧ GlideModeValue.new_from_text (GlideModeValue.get_formatted ⟨GlideMode.on⟩)
        = none := by
  refine ⟨fun s => ?_, by decide, by decide, by decide⟩
  unfold GlideModeValue.new_from_text
  dsimp only
  split_ifs with h1 h2 h3 <;> simp_all

/-! ## Patch bank parameter setting (`src/octasine/src/sync/patch_bank.rs`,
`src/octasine/src/sync/parameters.rs`) -/

/-- `PatchParameter`: holds the stored normalized patch value.

Modelled from the spec: the backing store `AtomicPositiveDouble`
(`sync/atomic_double.rs`, not present in the sources) simply holds the
latest value written, per the spec's cross-thread model ("each parameter
holds an atomic f32; readers see monotone latest value"). -/
structure PatchParameter where
  value : ℚ
deriving DecidableEq, Repr

/-- `PatchParameter::set_value`: store the given value as-is. -/
def PatchParameter.set_value (_p : PatchParameter) (value : ℚ) : PatchParameter :=
  ⟨value⟩

/-- The current patch of a `PatchBank`: its indexed parameter list
(`get_parameter_by_index` resolves an index in the current patch). -/
structure PatchBank where
  parameters : List PatchParameter
deriving DecidableEq, Repr

namespace PatchBank

/-- `PatchBank::get_parameter_by_index` on the current patch. -/
def get_parameter_by_index (b : PatchBank) (index : Nat) : Option PatchParameter :=
  b.parameters.get? index

/-- Replace the parameter at `index` (writing through the reference returned
by `get_parameter_by_index`). -/
def set_at (b : PatchBank) (index : Nat) (p : PatchParameter) : PatchBank :=
  ⟨b.parameters.set index p⟩

/-- `PatchBank::set_parameter_from_gui`: clamp to `[0, 1]` via
`value.min(1.0).max(0.0)`, then store; no-op when the index is invalid. -/
def set_parameter_from_gui (b : PatchBank) (index : Nat) (value : ℚ) : PatchBank :=
  match b.get_parameter_by_index index with
  | some parameter => b.set_at index (parameter.set_value (Max.max (Min.min value 1) 0))
  | none => b

/-- `PatchBank::set_parameter_from_host`: store the value as-is;
no-op when the index is invalid. -/
def set_parameter_from_host (b : PatchBank) (index : Nat) (value : ℚ) : PatchBank :=
  match b.get_parameter_by_index index with
  | some parameter => b.set_at index (parameter.set_value value)
  | none => b

end PatchBank

/-- C2 counterexample: `set_parameter_from_host` stores out-of-range input
unclamped. With a one-parameter bank, setting value `2` from the host stores
`2`, which does not lie in `[0, 1]`. -/
theorem c2_counterexample :
    ((PatchBank.mk [⟨0⟩]).set_parameter_from_host 0 2).parameters
        = [⟨2⟩]
    ∧ ¬ (∀ p ∈ ((PatchBank.mk [⟨0⟩]).set_parameter_from_host 0 2).parameters,
          0 ≤ p.value ∧ p.value ≤ 1) := by
  constructor
  · rfl
  · intro h
    have h2 := h ⟨2⟩ (by rw [show ((PatchBank.mk [⟨0⟩]).set_parameter_from_host 0 2).parameters = [⟨2⟩] from rfl]; simp)
    norm_num at h2

/-- C2 amended: only `set_parameter_from_gui` clamps its input to `[0, 1]`
on entry; for every bank, valid index and input value, the value it stores at
that index is `max (min value 1) 0` and lies in `[0, 1]`.
`set_parameter_from_host` stores the input value unchanged. -/
theorem c2_gui_set_clamps (b : PatchBank) (index : Nat) (value : ℚ)
    (h : index < b.parameters.length) :
    (b.set_parameter_from_gui index value).parameters.getD index ⟨0⟩
        = ⟨Max.max (Min.min value 1) 0⟩
    ∧ 0 ≤ ((b.set_parameter_from_gui index value).parameters.getD index ⟨0⟩).value
    ∧ ((b.set_parameter_from_gui index value).parameters.getD index ⟨0⟩).value ≤ 1
    ∧ (b.set_parameter_from_host index value).parameters.getD index ⟨0⟩
        = ⟨value⟩ := by
  have hsome : b.get_parameter_by_index index
      = some (b.parameters.get ⟨index, h⟩) := by
    unfold PatchBank.get_parameter_by_index
    exact List.get?_eq_get h
  refine ⟨?_, ?_, ?_, ?_⟩
  · unfold PatchBank.set_parameter_from_gui
    rw [hsome]
    unfold PatchBank.set_at PatchParameter.set_value
    simp [List.getD, List.getElem?_set_self, h]
  · unfold PatchBank.set_parameter_from_gui
    rw [hsome]
    unfold PatchBank.set_at PatchParameter.set_value
    simp [List.getD, List.getElem?_set_self, h]
  · unfold PatchBank.set_parameter_from_gui
    rw [hsome]
    unfold PatchBank.set_at PatchParameter.set_value
    simp [List.getD, List.getElem?_set_self, h, min_le_iff]
  · unfold PatchBank.set_parameter_from_host
    rw [hsome]
    unfold PatchBank.set_at PatchParameter.set_value
    simp [List.getD, List.getElem?_set_self, h]

/-- C2 witness: on a one-parameter bank, a GUI set with input `3/2` stores
the clamped value `1`, while a host set stores `3/2` unchanged. -/
theorem c2_gui_set_clamps_witness :
    ((PatchBank.mk [⟨0⟩]).set_parameter_from_gui 0 (3/2)).parameters.getD 0 ⟨0⟩
        = ⟨Max.max (Min.min (3/2) 1) 0⟩
    ∧ ((PatchBank.mk [⟨0⟩]).set_parameter_from_host 0 (3/2)).parameters.getD 0 ⟨0⟩
        = ⟨3/2⟩ := by
  have h := c2_gui_set_clamps (PatchBank.mk [⟨0⟩]) 0 (3/2) (by simp)
  exact ⟨h.1, h.2.2.2⟩

/-! ## Audio state, voice allocation and note events
(`src/octasine/src/audio/mod.rs`) -/

/-- `VoiceMode`. -/
inductive VoiceMode where
  | polyphonic
  | monophonic
deriving DecidableEq, Repr

/-- `PortamentoMode`. -/
inductive PortamentoMode where
  | off
  | auto
  | always
deriving DecidableEq, Repr

/-- A voice.

Modelled from the spec: the `Voice` type (`audio/voices`, not present in the
sources) carries key-pressed flag, velocity, active flag, optional host note
id, glide source/target and envelope state; `press_key` re-enters Attack from
the current envelope volume, which is therefore preserved. -/
structure Voice where
  key_pressed : Bool
  velocity : ℚ
  active : Bool
  clap_note_id : Option Int
  glide_from_key : Option Nat
  retarget_key : Option Nat
  envelope_volume : ℚ
deriving DecidableEq, Repr

namespace Voice

/-- Modelled from the spec: `Voice::new(MidiPitch::new(key))`, an inactive
voice with default state. -/
def new (_key : Nat) : Voice := ⟨false, 0, false, none, none, none, 0⟩

/-- Modelled from the spec: `Voice::press_key(params, velocity, glide_from,
retarget_to, note_id)` marks the key pressed, stores velocity and note id,
sets the glide source/target, and restarts envelopes in Attack from the
current volume (so the envelope state of a reused voice is preserved). -/
def press_key (glide_from retarget_to : Option Nat) (velocity : ℚ)
    (note_id : Option Int) (v : Voice) : Voice :=
  { v with
    key_pressed := true
    active := true
    velocity := velocity
    clap_note_id := note_id
    glide_from_key := glide_from
    retarget_key := retarget_to }

/-- Modelled from the spec: `Voice::release_key` clears the gate. -/
def release_key (v : Voice) : Voice := { v with key_pressed := false }

/-- Modelled from the spec: `Voice::change_pitch(key, glide)` retargets the
pitch interpolator. -/
def change_pitch (key : Nat) (glide : Bool) (v : Voice) : Voice :=
  { v with
    retarget_key := some key
    glide_from_key := if glide then v.retarget_key else none }

end Voice

/-- Modelled from the spec: `KeyVelocity::from_midi_velocity(v)` is `v / 127`. -/
def key_velocity_from_midi (v : Nat) : ℚ := (v : ℚ) / 127

/-- `NoteEventInner`. -/
inductive NoteEventInner where
  | midi (d0 d1 d2 : Nat)
  | clap_note_on (key : Nat) (velocity : ℚ) (clap_note_id : Int)
  | clap_note_pressure (key : Nat) (pressure : ℚ)
  | clap_note_off (key : Nat)
  | clap_bpm (bpm : ℚ)
deriving DecidableEq, Repr

/-- `NoteEvent`: delta frames plus payload. -/
structure NoteEvent where
  delta_frames : Nat
  event : NoteEventInner
deriving DecidableEq, Repr

/-- Insertion-ordered map lookup (`IndexMap::get`): value of the first entry
with the given key. -/
def index_map_get (m : List (Nat × Voice)) (key : Nat) : Option Voice :=
  (m.find? (fun p => decide (p.1 = key))).map Prod.snd

/-- `IndexMap::shift_remove`: drop the entry for `key`, preserving the order
of the remaining entries. -/
def index_map_remove (m : List (Nat × Voice)) (key : Nat) : List (Nat × Voice) :=
  m.filter (fun p => decide (p.1 ≠ key))

/-- `IndexMap::entry(key).or_insert(v)`: append at the end when absent. -/
def index_map_insert_at_end (m : List (Nat × Voice)) (key : Nat) (v : Voice) :
    List (Nat × Voice) :=
  if (index_map_get m key).isSome then m else m ++ [(key, v)]

/-- Mutation through the reference returned by the entry API: apply `f` to
the value stored at `key`. -/
def index_map_modify (m : List (Nat × Voice)) (key : Nat) (f : Voice → Voice) :
    List (Nat × Voice) :=
  m.map (fun p => if p.1 = key then (p.1, f p.2) else p)

/-- `IndexSet::shift_remove`. -/
def index_set_remove (s : List Nat) (key : Nat) : List Nat :=
  s.filter (fun k => decide (k ≠ key))

/-- Capacity of the pending note event ring buffer
(`LocalRb::new(1024)` in `AudioState::default`). -/
def note_event_queue_capacity : Nat := 1024

/-- `AudioState`: the audio-thread state relevant to event processing.
The `voice_mode` and `portamento_mode` fields model the current audio values
read live from `self.parameters` by `key_on` / `key_off`. -/
structure AudioState where
  bpm : ℚ
  global_pitch_bend : GlobalPitchBend
  sustain_pedal_on : Bool
  voice_mode : VoiceMode
  portamento_mode : PortamentoMode
  voices : List (Nat × Voice)
  pressed_keys : List Nat
  pending_note_events : List NoteEvent
deriving DecidableEq, Repr

namespace AudioState

/-- `AudioState::enqueue_note_event`: push onto the ring buffer; on a full
buffer the event is dropped (the error is only logged). -/
def enqueue_note_event (s : AudioState) (event : NoteEvent) : AudioState :=
  if s.pending_note_events.length < note_event_queue_capacity
  then { s with pending_note_events := s.pending_note_events ++ [event] }
  else s

/-- `AudioState::set_bpm`. -/
def set_bpm (s : AudioState) (bpm : ℚ) : AudioState := { s with bpm := bpm }

/-- `AudioState::aftertouch`: the body is disabled (commented out) in the
source, so this is the identity. -/
def aftertouch (s : AudioState) (_key : Nat) (_velocity : ℚ) : AudioState := s

/-- `AudioState::key_on`. -/
def key_on (s : AudioState) (key : Nat) (velocity : ℚ)
    (opt_clap_note_id : Option Int) : AudioState :=
  let pressed_keys := index_set_remove s.pressed_keys key ++ [key]
  match s.voice_mode with
  | VoiceMode.polyphonic =>
    let opt_glide_from_key : Option Nat :=
      match s.portamento_mode with
      | PortamentoMode.off => none
      | PortamentoMode.auto =>
          ((s.voices.reverse.filter
            (fun p => decide (p.1 ≠ key) && p.2.key_pressed)).head?).map Prod.fst
      | PortamentoMode.always =>
          ((s.voices.reverse.filter (fun p => decide (p.1 ≠ key))).head?).map Prod.fst
    let base : Voice :=
      match index_map_get s.voices key with
      | some v => v
      | none => Voice.new key
    let voices1 := index_map_insert_at_end (index_map_remove s.voices key) key base
    let voices2 :=
      match opt_glide_from_key with
      | some glide_from_key =>
          index_map_modify voices1 key
            (Voice.press_key (some glide_from_key) (some key) velocity opt_clap_note_id)
      | none =>
          index_map_modify voices1 key
            (Voice.press_key (some key) none velocity opt_clap_note_id)
    { s with pressed_keys := pressed_keys, voices := voices2 }
  | VoiceMode.monophonic =>
    let pressed_key_iter := pressed_keys.reverse.filter (fun k => decide (k ≠ key))
    let opt_pair : Option Nat × Option Nat :=
      match s.portamento_mode with
      | PortamentoMode.off => (pressed_key_iter.head?, none)
      | PortamentoMode.auto => (pressed_key_iter.head?, pressed_key_iter.head?)
      | PortamentoMode.always =>
          let h := (pressed_key_iter
            ++ (s.voices.reverse.filter (fun p => decide (p.1 ≠ key))).map Prod.fst).head?
          (h, h)
    let opt_replace_key := opt_pair.1
    let opt_glide_from_key := opt_pair.2
    let voices1 :=
      match index_map_get s.voices key with
      | some v => index_map_insert_at_end (index_map_remove s.voices key) key v
      | none =>
        match opt_replace_key with
        | some replace_key =>
          match index_map_get s.voices replace_key with
          | some v => index_map_insert_at_end (index_map_remove s.voices replace_key) key v
          | none => index_map_insert_at_end s.voices key (Voice.new key)
        | none => index_map_insert_at_end s.voices key (Voice.new key)
    let voices2 :=
      match opt_glide_from_key with
      | some glide_from_key =>
          index_map_modify voices1 key
            (Voice.press_key (some glide_from_key) (some key) velocity opt_clap_note_id)
      | none =>
          index_map_modify voices1 key
            (Voice.press_key (some key) none velocity opt_clap_note_id)
    let voices3 := voices2.map
      (fun p => if p.2.key_pressed && decide (p.1 ≠ key)
        then (p.1, Voice.release_key p.2) else p)
    { s with pressed_keys := pressed_keys, voices := voices3 }

/-- `AudioState::key_off`. -/
def key_off (s : AudioState) (key : Nat) : AudioState :=
  let pressed_keys := index_set_remove s.pressed_keys key
  match s.voice_mode with
  | VoiceMode.polyphonic =>
    { s with pressed_keys := pressed_keys
             voices := index_map_modify s.voices key Voice.release_key }
  | VoiceMode.monophonic =>
    match pressed_keys.reverse.head? with
    | some go_to_key =>
      match index_map_get s.voices key with
      | some v =>
        let glide : Bool := decide (s.portamento_mode ≠ PortamentoMode.off)
        let voices1 := index_map_insert_at_end (index_map_remove s.voices key) go_to_key v
        { s with pressed_keys := pressed_keys
                 voices := index_map_modify voices1 go_to_key
                   (Voice.change_pitch go_to_key glide) }
      | none => { s with pressed_keys := pressed_keys }
    | none =>
      { s with pressed_keys := pressed_keys
               voices := index_map_modify s.voices key Voice.release_key }

/-- `AudioState::process_note_event`: MIDI decoding discards the channel
nibble (`data[0] >>= 4`) and dispatches. -/
def process_note_event (s : AudioState) (event : NoteEventInner) : AudioState :=
  match event with
  | NoteEventInner.midi d0 d1 d2 =>
    match d0 >>> 4, d1, d2 with
    | 8, key, _ => s.key_off key
    | 9, key, 0 => s.key_off key
    | 9, key, velocity => s.key_on key (key_velocity_from_midi velocity) none
    | 10, key, pressure => s.aftertouch key (key_velocity_from_midi pressure)
    | 11, 64, v => { s with sustain_pedal_on := decide (64 ≤ v) }
    | 14, lsb, msb =>
        { s with global_pitch_bend := s.global_pitch_bend.update_from_midi lsb msb }
    | _, _, _ => s
  | NoteEventInner.clap_note_on key velocity clap_note_id =>
      s.key_on key velocity (some clap_note_id)
  | NoteEventInner.clap_note_pressure key pressure => s.aftertouch key pressure
  | NoteEventInner.clap_note_off key => s.key_off key
  | NoteEventInner.clap_bpm bpm => s.set_bpm bpm

end AudioState

/-- A concrete idle audio state used to instantiate theorems. -/
def test_audio_state : AudioState :=
  { bpm := 120
    global_pitch_bend := ⟨0⟩
    sustain_pedal_on := false
    voice_mode := VoiceMode.polyphonic
    portamento_mode := PortamentoMode.off
    voices := []
    pressed_keys := []
    pending_note_events := [] }

/-- C7: the pending note event ring buffer has capacity 1024; when not full,
`enqueue_note_event` appends the event at the end (FIFO order); when full it
leaves the whole state (in particular the buffer contents) unchanged,
dropping the event. The enqueue operation is a total function, so it cannot
panic. -/
theorem c7_note_event_queue (s : AudioState) (e : NoteEvent) :
    note_event_queue_capacity = 1024
    ∧ (s.pending_note_events.length < note_event_queue_capacity →
        (s.enqueue_note_event e).pending_note_events = s.pending_note_events ++ [e])
    ∧ (¬ s.pending_note_events.length < note_event_queue_capacity →
        s.enqueue_note_event e = s) := by
  refine ⟨rfl, fun h => ?_, fun h => ?_⟩ <;>
    simp [AudioState.enqueue_note_event, h]

/-- C7 witness: enqueueing onto an empty queue appends; enqueueing onto a
full queue (1024 entries) leaves the state unchanged. -/
theorem c7_note_event_queue_witness :
    (test_audio_state.enqueue_note_event ⟨0, NoteEventInner.clap_note_off 60⟩
      ).pending_note_events = [⟨0, NoteEventInner.clap_note_off 60⟩]
    ∧ ({ test_audio_state with
          pending_note_events :=
            List.replicate 1024 ⟨0, NoteEventInner.clap_note_off 60⟩
        } : AudioState).enqueue_note_event ⟨1, NoteEventInner.clap_note_off 61⟩
      = { test_audio_state with
          pending_note_events :=
            List.replicate 1024 ⟨0, NoteEventInner.clap_note_off 60⟩ } := by
  constructor
  · have h := (c7_note_event_queue test_audio_state
      ⟨0, NoteEventInner.clap_note_off 60⟩).2.1
      (by simp [test_audio_state, note_event_queue_capacity])
    rw [h]
    rfl
  · exact (c7_note_event_queue _ _).2.2
      (by dsimp only; simp only [List.length_replicate]; decide)

/-- C8: processing a MIDI event whose status nibble is `0xA` (aftertouch)
is a no-op: the entire audio state is unchanged. -/
theorem c8_aftertouch_noop (s : AudioState) (d0 d1 d2 : Nat)
    (h : d0 >>> 4 = 10) :
    s.process_note_event (NoteEventInner.midi d0 d1 d2) = s := by
  unfold AudioState.process_note_event
  dsimp only
  rw [h]
  rfl

/-- C8 witness: MIDI aftertouch `[0xA3, 60, 100]` leaves the state unchanged. -/
theorem c8_aftertouch_noop_witness :
    test_audio_state.process_note_event (NoteEventInner.midi 163 60 100)
      = test_audio_state :=
  c8_aftertouch_noop test_audio_state 163 60 100 (by decide)

/-! ### Facts about the insertion-ordered voice map -/

theorem mem_index_map_remove_ne {m : List (Nat × Voice)} {key : Nat}
    {p : Nat × Voice} (h : p ∈ index_map_remove m key) : p.1 ≠ key := by
  unfold index_map_remove at h
  have := List.of_mem_filter h
  simpa using this

theorem index_map_get_remove_self (m : List (Nat × Voice)) (key : Nat) :
    index_map_get (index_map_remove m key) key = none := by
  unfold index_map_get
  rw [List.find?_eq_none.mpr]
  · rfl
  · intro p hp
    have := mem_index_map_remove_ne hp
    simpa using this

theorem index_map_remove_eq_self {m : List (Nat × Voice)} {key : Nat}
    (h : ∀ p ∈ m, p.1 ≠ key) : index_map_remove m key = m := by
  unfold index_map_remove
  rw [List.filter_eq_self.mpr]
  intro p hp
  simpa using h p hp

theorem index_map_get_none_not_mem {m : List (Nat × Voice)} {key : Nat}
    (h : index_map_get m key = none) : ∀ p ∈ m, p.1 ≠ key := by
  intro p hp
  unfold index_map_get at h
  rw [Option.map_eq_none'] at h
  have := List.find?_eq_none.mp h p hp
  simpa using this

theorem index_map_modify_append {l : List (Nat × Voice)} {key : Nat}
    (v : Voice) (f : Voice → Voice) (h : ∀ p ∈ l, p.1 ≠ key) :
    index_map_modify (l ++ [(key, v)]) key f = l ++ [(key, f v)] := by
  unfold index_map_modify
  rw [List.map_append]
  congr 1
  · conv_rhs => rw [show l = l.map id from (List.map_id l).symm]
    apply List.map_congr_left
    intro p hp
    rw [if_neg (h p hp)]
    rfl
  · simp

theorem length_index_map_remove_of_get_some {m : List (Nat × Voice)}
    {key : Nat} {v : Voice} (hnd : (m.map Prod.fst).Nodup)
    (h : index_map_get m key = some v) :
    (index_map_remove m key).length + 1 = m.length := by
  induction m with
  | nil => simp [index_map_get] at h
  | cons hd tl ih =>
    rw [List.map_cons, List.nodup_cons] at hnd
    by_cases hk : hd.1 = key
    · have hrm : index_map_remove (hd :: tl) key = tl := by
        unfold index_map_remove
        rw [List.filter_cons_of_neg (by simpa using hk)]
        apply index_map_remove_eq_self
        intro p hp hpk
        exact hnd.1 (by rw [hk, ← hpk]; exact List.mem_map_of_mem Prod.fst hp)
      rw [hrm]
      simp
    · have hrm : index_map_remove (hd :: tl) key = hd :: index_map_remove tl key := by
        unfold index_map_remove
        rw [List.filter_cons_of_pos (by simpa using hk)]
      have hget : index_map_get tl key = some v := by
        unfold index_map_get at h ⊢
        rw [List.find?_cons_of_neg tl (by simpa using hk)] at h
        exact h
      rw [hrm]
      simp only [List.length_cons]
      rw [ih hnd.2 hget]

/-- In polyphonic mode, `key_on` rewrites the voice table to: all other
entries in order, followed by the pressed entry for `key` (reusing the
existing voice when present, else a fresh one). -/
theorem key_on_polyphonic_voices_shape (s : AudioState) (key : Nat)
    (velocity : ℚ) (opt_id : Option Int)
    (hmode : s.voice_mode = VoiceMode.polyphonic) :
    ∃ gf rt, (s.key_on key velocity opt_id).voices
      = index_map_remove s.voices key
        ++ [(key, Voice.press_key gf rt velocity opt_id
              ((index_map_get s.voices key).getD (Voice.new key)))] := by
  unfold AudioState.key_on
  rw [hmode]
  dsimp only
  have hbase : (match index_map_get s.voices key with
      | some v => v
      | none => Voice.new key)
      = (index_map_get s.voices key).getD (Voice.new key) := by
    cases index_map_get s.voices key <;> rfl
  have hins : index_map_insert_at_end (index_map_remove s.voices key) key
      ((index_map_get s.voices key).getD (Voice.new key))
      = index_map_remove s.voices key
        ++ [(key, (index_map_get s.voices key).getD (Voice.new key))] := by
    unfold index_map_insert_at_end
    rw [index_map_get_remove_self]
    rfl
  rw [hbase, hins]
  cases hog : (match s.portamento_mode with
      | PortamentoMode.off => none
      | PortamentoMode.auto =>
          ((s.voices.reverse.filter
            (fun p => decide (p.1 ≠ key) && p.2.key_pressed)).head?).map Prod.fst
      | PortamentoMode.always =>
          ((s.voices.reverse.filter
            (fun p => decide (p.1 ≠ key))).head?).map Prod.fst : Option Nat) with
  | none =>
    refine ⟨some key, none, ?_⟩
    exact index_map_modify_append _ _ (fun p hp => mem_index_map_remove_ne hp)
  | some g =>
    refine ⟨some g, some key, ?_⟩
    exact index_map_modify_append _ _ (fun p hp => mem_index_map_remove_ne hp)

/-- C6: in polyphonic mode, after `key_on(key, velocity)` the voice table
contains exactly one entry for `key`, positioned last; when an entry for
`key` already existed, that same voice is reused (re-pulsed with
`press_key`, preserving its envelope state) and the number of voices does
not increase; a new voice (`Voice::new`) is created only when no entry for
`key` existed. -/
theorem c6_polyphonic_key_on (s : AudioState) (key : Nat) (velocity : ℚ)
    (opt_id : Option Int)
    (hmode : s.voice_mode = VoiceMode.polyphonic)
    (hnd : (s.voices.map Prod.fst).Nodup) :
    ((s.key_on key velocity opt_id).voices.countP
        (fun p => decide (p.1 = key)) = 1)
    ∧ (∃ v, (s.key_on key velocity opt_id).voices.getLast? = some (key, v))
    ∧ (∀ v0, index_map_get s.voices key = some v0 →
        (s.key_on key velocity opt_id).voices.length = s.voices.length
        ∧ ∃ gf rt, (s.key_on key velocity opt_id).voices.getLast?
            = some (key, Voice.press_key gf rt velocity opt_id v0))
    ∧ (index_map_get s.voices key = none →
        (s.key_on key velocity opt_id).voices.length = s.voices.length + 1
        ∧ ∃ gf rt, (s.key_on key velocity opt_id).voices.getLast?
            = some (key, Voice.press_key gf rt velocity opt_id (Voice.new key))) := by
  obtain ⟨gf, rt, hshape⟩ :=
    key_on_polyphonic_voices_shape s key velocity opt_id hmode
  refine ⟨?_, ?_, ?_, ?_⟩
  · rw [hshape, List.countP_append]
    have h0 : (index_map_remove s.voices key).countP
        (fun p => decide (p.1 = key)) = 0 := by
      rw [List.countP_eq_zero]
      intro p hp
      simpa using mem_index_map_remove_ne hp
    rw [h0]
    simp
  · rw [hshape]
    exact ⟨Voice.press_key gf rt velocity opt_id
      ((index_map_get s.voices key).getD (Voice.new key)), List.getLast?_concat _⟩
  · intro v0 hv0
    constructor
    · rw [hshape, List.length_append]
      simp only [List.length_singleton]
      rw [length_index_map_remove_of_get_some hnd hv0]
    · refine ⟨gf, rt, ?_⟩
      rw [hshape, hv0]
      simp
  · intro hnone
    constructor
    · rw [hshape, List.length_append,
        index_map_remove_eq_self (index_map_get_none_not_mem hnone)]
      simp
    · refine ⟨gf, rt, ?_⟩
      rw [hshape, hnone]
      simp

/-- C6 witness: pressing key 60 when a voice for key 60 already exists keeps
exactly one entry for that key and does not increase the voice count. -/
theorem c6_polyphonic_key_on_witness :
    (({ test_audio_state with voices := [(60, Voice.new 60)] } : AudioState).key_on
        60 1 none).voices.countP (fun p => decide (p.1 = 60)) = 1
    ∧ (({ test_audio_state with voices := [(60, Voice.new 60)] } : AudioState).key_on
        60 1 none).voices.length = 1 := by
  have h := c6_polyphonic_key_on
    { test_audio_state with voices := [(60, Voice.new 60)] } 60 1 none rfl (by simp)
  exact ⟨h.1, (h.2.2.1 (Voice.new 60) rfl).1⟩

/-! ## Per-pass generator early-out (`process_f32` in
`src/octasine/src/audio/gen/mod.rs`) -/

/-- The audio state as seen by `process_f32`: the pending note event queue,
the polyphonic voice map, the monophonic voice active flag, and the rest of
the state (parameters, interpolators, voices' internals, RNG, caches),
abstracted as `rest`. -/
structure GenAudioState (σ : Type) where
  pending_note_events : List NoteEvent
  polyphonic_voices : List (Nat × Voice)
  monophonic_voice_active : Bool
  rest : σ

/-- `process_f32` at lane width 2 (one output frame per pass): when the
event queue is empty, the polyphonic voice map is empty and the monophonic
voice is inactive, write zeros to both output lanes and return without
touching the state; otherwise run the extraction and generation pass,
abstracted here as `busy` (`extract_voice_data` followed by `gen_audio`). -/
def process_f32 {σ : Type}
    (busy : GenAudioState σ → GenAudioState σ × (ℚ × ℚ))
    (s : GenAudioState σ) : GenAudioState σ × (ℚ × ℚ) :=
  if s.pending_note_events.isEmpty
      && s.polyphonic_voices.isEmpty
      && !s.monophonic_voice_active
  then (s, (0, 0))
  else busy s

/-- C5: when at entry the pending note event queue is empty, the polyphonic
voice map is empty and the monophonic voice is not active, `process_f32`
writes exactly `0.0` to the left and right output and leaves the entire
state (voices, parameters, everything in `rest`) unchanged, for any
generation pass `busy`. -/
theorem c5_silence_when_idle {σ : Type}
    (busy : GenAudioState σ → GenAudioState σ × (ℚ × ℚ))
    (s : GenAudioState σ)
    (h1 : s.pending_note_events = [])
    (h2 : s.polyphonic_voices = [])
    (h3 : s.monophonic_voice_active = false) :
    process_f32 busy s = (s, (0, 0)) := by
  unfold process_f32
  rw [if_pos]
  rw [h1, h2, h3]
  rfl

/-- C5 witness: a concrete idle state with a busy branch that would report
nonzero output and modified state is short-circuited to silence. -/
theorem c5_silence_when_idle_witness :
    process_f32
      (fun s : GenAudioState Nat => ({ s with rest := s.rest + 1 }, (1, 1)))
      ⟨[], [], false, 0⟩
      = (⟨[], [], false, 0⟩, (0, 0)) :=
  c5_silence_when_idle _ _ rfl rfl rfl

/-! ## Audio generation (`gen_audio` in `src/octasine/src/audio/gen/mod.rs`)

The fast wave evaluators (`fast_sin`, `square`, `triangle`, `saw`) and the
transcendental constant `TAU` are parameters of the model (`wave`, `tau`);
the white-noise RNG is modelled as a stream of per-voice, per-operator
uniform values (`noise`), broadcast to both stereo lanes as in the source. -/

/-- `MASTER_VOLUME_FACTOR = 0.2`. -/
def MASTER_VOLUME_FACTOR : ℚ := 1/5

/-- `LIMIT = 10.0`, the hard-clip bound. -/
def LIMIT : ℚ := 10

/-- `WaveType` (`parameters/operator_wave_type.rs`). -/
inductive WaveType where
  | sine
  | square
  | triangle
  | saw
  | white_noise
deriving DecidableEq, Repr

/-- `VoiceOperatorData`: the per-operator slice of the scratch cache, at lane
width 2. `modulation_targets` models `ModTargetStorage::active_indices()`
(the set bits of the 4-bit target mask, in ascending order). -/
structure VoiceOperatorData where
  volume : Pd
  mix_out : Pd
  mod_out : Pd
  feedback : Pd
  panning : Pd
  constant_power_panning : Pd
  envelope_volume : Pd
  phase : Pd
  wave_type : WaveType
  modulation_targets : List (Fin 4)
  velocity_sensitivity_mod_out : Pd
  velocity_sensitivity_feedback : Pd
deriving DecidableEq, Repr

/-- `VoiceData`: the per-voice slice of the scratch cache. -/
structure VoiceData where
  voice_index : Nat
  key_velocity : Pd
  master_volume : Pd
  operators : Fin 4 → VoiceOperatorData

/-- `gen_voice_operator_audio`: compute one operator's
`(mix_out, mod_out)` contribution. -/
def gen_voice_operator_audio (wave : WaveType → Pd → Pd) (tau : ℚ)
    (noise : ℚ) (operator_data : VoiceOperatorData)
    (modulation_inputs : Pd) (key_velocity : Pd) : Pd × Pd :=
  let phase := operator_data.phase
  let feedback := operator_data.feedback
    * velocity_factor operator_data.velocity_sensitivity_feedback key_velocity
  let sample :=
    match operator_data.wave_type with
    | WaveType.sine =>
        let phase := phase * Pd.new tau
        let feedback := feedback * wave WaveType.sine phase
        wave WaveType.sine (phase + feedback + modulation_inputs)
    | WaveType.square =>
        let feedback := feedback * wave WaveType.square phase
        wave WaveType.square (phase + feedback + modulation_inputs)
    | WaveType.triangle =>
        let feedback := feedback * wave WaveType.triangle phase
        wave WaveType.triangle (phase + feedback + modulation_inputs)
    | WaveType.saw =>
        let feedback := feedback * wave WaveType.saw phase
        wave WaveType.saw (phase + feedback + modulation_inputs)
    | WaveType.white_noise =>
        Pd.new 2 * (Pd.new noise - Pd.new (1/2))
  let sample := sample * operator_data.volume * operator_data.envelope_volume
  let sample :=
    let mono_mix := mono_mix_factor operator_data.panning
    let mono := sample.pairwise_horizontal_sum * Pd.new (1/2)
    mono_mix * mono + (Pd.new 1 - mono_mix) * sample
  let mix_out := sample * operator_data.constant_power_panning
    * operator_data.mix_out
  let mod_out := sample * linear_panning_factor operator_data.panning
    * velocity_factor operator_data.velocity_sensitivity_mod_out key_velocity
    * operator_data.mod_out
  (mix_out, mod_out)

/-- First pass of `run_operator_dependency_analysis`:
`volume_active & (mod_out_active | mix_out_active)`. -/
def first_pass_generate_audio (vd : VoiceData) (i : Fin 4) : Bool :=
  (vd.operators i).volume.any_over_zero
    && ((vd.operators i).mod_out.any_over_zero
        || (vd.operators i).mix_out.any_over_zero)

/-- `operator_mix_out_active` recorded during the first pass. -/
def operator_mix_out_active (vd : VoiceData) (i : Fin 4) : Bool :=
  (vd.operators i).mix_out.any_over_zero

/-- One iteration of the second (pruning) pass: clear `generate_audio[i]`
when every modulation target is inactive and the operator's own mix out is
not active. -/
def second_pass_step (vd : VoiceData) (ga : Fin 4 → Bool) (i : Fin 4) :
    Fin 4 → Bool :=
  if ((vd.operators i).modulation_targets.all (fun t => !(ga t)))
      && !(operator_mix_out_active vd i)
  then Function.update ga i false
  else ga

/-- `run_operator_dependency_analysis`: first pass over all operators, then
pruning over operators 1..3 in ascending order. -/
def run_operator_dependency_analysis (vd : VoiceData) : Fin 4 → Bool :=
  ([1, 2, 3] : List (Fin 4)).foldl (second_pass_step vd)
    (first_pass_generate_audio vd)

/-- One step of the operator loop in `gen_audio`: when
`operator_generate_audio[i]` is set, compute the operator's sample and add
the mix contribution to the voice sum and the mod contribution to every
modulation target's input accumulator; otherwise skip. State: (per-operator
modulation inputs, voice mix sum). -/
def operator_step (wave : WaveType → Pd → Pd) (tau : ℚ) (noise : Fin 4 → ℚ)
    (key_velocity : Pd) (vd : VoiceData) (flags : Fin 4 → Bool)
    (st : (Fin 4 → Pd) × Pd) (i : Fin 4) : (Fin 4 → Pd) × Pd :=
  if flags i then
    let operator_voice_data := vd.operators i
    let out := gen_voice_operator_audio wave tau (noise i) operator_voice_data
      (st.1 i) key_velocity
    let inputs := operator_voice_data.modulation_targets.foldl
      (fun acc target => Function.update acc target (acc target + out.2)) st.1
    (inputs, st.2 + out.1)
  else st

/-- The voice mix sum of one voice in `gen_audio`: iterate operators
3, 2, 1, 0 with the given generate-audio flags, starting from zeroed
modulation inputs and a zeroed mix sum. -/
def gen_voice_audio (wave : WaveType → Pd → Pd) (tau : ℚ) (noise : Fin 4 → ℚ)
    (key_velocity : Pd) (vd : VoiceData) (flags : Fin 4 → Bool) : Pd :=
  (([3, 2, 1, 0] : List (Fin 4)).foldl
    (operator_step wave tau noise key_velocity vd flags)
    (fun _ => Pd.new_zeroed, Pd.new_zeroed)).2

/-- The final output stage of `gen_audio`: scale the accumulated voice sum
by `MASTER_VOLUME_FACTOR`, then clip to `[-LIMIT, LIMIT]`. -/
def hard_clip_output (total_mix_out : Pd) : Pd :=
  Pd.max (Pd.min (total_mix_out * Pd.new MASTER_VOLUME_FACTOR) (Pd.new LIMIT))
    (Pd.new (-LIMIT))

/-- `gen_audio`: accumulate every active voice's mix sum scaled by its
volume-velocity factor and master volume, then scale by the master volume
factor, hard-clip, and deinterleave (lane `l` to the left buffer, lane `r`
to the right buffer). -/
def gen_audio (wave : WaveType → Pd → Pd) (tau : ℚ)
    (noise : Nat → Fin 4 → ℚ) (volume_velocity_sensitivity : Pd)
    (active_voices : List VoiceData) : Pd :=
  let total_mix_out := active_voices.enum.foldl
    (fun acc iv =>
      let voice_data := iv.2
      let operator_generate_audio := run_operator_dependency_analysis voice_data
      let voice_mix_out := gen_voice_audio wave tau (noise iv.1)
        voice_data.key_velocity voice_data operator_generate_audio
      let volume_velocity_factor :=
        velocity_factor volume_velocity_sensitivity voice_data.key_velocity
      acc + voice_mix_out * volume_velocity_factor * voice_data.master_volume)
    Pd.new_zeroed
  hard_clip_output total_mix_out

/-- The fast square-wave evaluator restricted to the phases reached in the
counterexample configuration (first half-period), where the square wave
outputs 1. -/
def c1_square_wave : WaveType → Pd → Pd := fun _ _ => Pd.new 1

/-- A carrier operator at full volume and mix out, panned hard left, with
modulation, feedback and velocity sensitivity off (all values inside the
parameter ranges: operator volume and mix out at most 2, envelope at most 1,
constant-power panning pair `(cos 0, sin 0)`). -/
def c1_voice_operator : VoiceOperatorData :=
  { volume := Pd.new 2
    mix_out := Pd.new 2
    mod_out := Pd.new_zeroed
    feedback := Pd.new_zeroed
    panning := Pd.new_zeroed
    constant_power_panning := Pd.new_from_pair 1 0
    envelope_volume := Pd.new 1
    phase := Pd.new_zeroed
    wave_type := WaveType.square
    modulation_targets := []
    velocity_sensitivity_mod_out := Pd.new_zeroed
    velocity_sensitivity_feedback := Pd.new_zeroed }

/-- A single voice with four carrier operators at full output. -/
def c1_voice : VoiceData :=
  { voice_index := 0
    key_velocity := Pd.new 1
    master_volume := Pd.new 1
    operators := fun _ => c1_voice_operator }

/-- C1 counterexample: the output bound `2.0` is wrong. With one voice whose
four carriers are at full volume and mix out, the left output sample of
`gen_audio` is `16/5 = 3.2 > 2`; and the final output stage applied to an
accumulated voice sum of `20` yields `4`, outside `[-2, 2]` (the clip at
`±LIMIT = ±10` happens after the `0.2` scaling, so it bounds the output by
`10`, not by `2`). -/
theorem c1_counterexample :
    (gen_audio c1_square_wave 0 (fun _ _ => 0) Pd.new_zeroed [c1_voice]).l = 16/5
    ∧ ¬ (gen_audio c1_square_wave 0 (fun _ _ => 0) Pd.new_zeroed [c1_voice]).l ≤ 2
    ∧ hard_clip_output (Pd.new 20) = Pd.new 4
    ∧ ¬ |(hard_clip_output (Pd.new 20)).l| ≤ 2 := by
  have hflags : ∀ i : Fin 4, run_operator_dependency_analysis c1_voice i = true := by
    intro i
    norm_num [run_operator_dependency_analysis, second_pass_step,
      first_pass_generate_audio, operator_mix_out_active, Pd.any_over_zero,
      c1_voice, c1_voice_operator]
  have hg : gen_audio c1_square_wave 0 (fun _ _ => 0) Pd.new_zeroed [c1_voice]
      = Pd.new_from_pair (16/5) 0 := by
    unfold gen_audio
    rw [show List.enum [c1_voice] = [(0, c1_voice)] from rfl]
    simp only [List.foldl, gen_voice_audio, operator_step, hflags, if_true]
    norm_num [gen_voice_operator_audio, c1_square_wave, velocity_factor,
      mono_mix_factor, linear_panning_factor, c1_voice, c1_voice_operator,
      hard_clip_output, MASTER_VOLUME_FACTOR, LIMIT, Pd.min, Pd.max, Pd.new,
      Pd.new_zeroed, Pd.new_from_pair, Pd.pairwise_horizontal_sum,
      min_def, max_def]
  refine ⟨by rw [hg]; rfl, by rw [hg]; norm_num [Pd.new_from_pair], ?_, ?_⟩
  · apply Pd.ext_lanes <;>
      norm_num [hard_clip_output, MASTER_VOLUME_FACTOR, LIMIT, Pd.min, Pd.max,
        Pd.new, min_def, max_def]
  · norm_num [hard_clip_output, MASTER_VOLUME_FACTOR, LIMIT, Pd.min, Pd.max,
      Pd.new, min_def, max_def]

/-- C1 amended: every output sample of `gen_audio` lies in
`[-LIMIT, LIMIT] = [-10, 10]`: the hard clip to `±10` is applied after the
`0.2` master scaling, so `10` (not `10 × 0.2 = 2`) bounds the written
samples, for every wave evaluator, every noise stream, every velocity
sensitivity and every list of voice data. -/
theorem c1_output_bounded_by_limit (wave : WaveType → Pd → Pd) (tau : ℚ)
    (noise : Nat → Fin 4 → ℚ) (volume_velocity_sensitivity : Pd)
    (active_voices : List VoiceData) :
    -10 ≤ (gen_audio wave tau noise volume_velocity_sensitivity active_voices).l
    ∧ (gen_audio wave tau noise volume_velocity_sensitivity active_voices).l ≤ 10
    ∧ -10 ≤ (gen_audio wave tau noise volume_velocity_sensitivity active_voices).r
    ∧ (gen_audio wave tau noise volume_velocity_sensitivity active_voices).r ≤ 10 := by
  have hclip : ∀ t : Pd,
      -10 ≤ (hard_clip_output t).l ∧ (hard_clip_output t).l ≤ 10
      ∧ -10 ≤ (hard_clip_output t).r ∧ (hard_clip_output t).r ≤ 10 := by
    intro t
    unfold hard_clip_output LIMIT
    refine ⟨?_, ?_, ?_, ?_⟩ <;> simp only [Pd.max_l, Pd.max_r, Pd.min_l,
      Pd.min_r, Pd.new_l, Pd.new_r]
    · exact le_max_right _ _
    · exact max_le (le_trans (min_le_right _ _) (by norm_num)) (by norm_num)
    · exact le_max_right _ _
    · exact max_le (le_trans (min_le_right _ _) (by norm_num)) (by norm_num)
  unfold gen_audio
  exact hclip _

/-! ### Soundness of the operator dependency analysis -/

theorem Pd.add_zeroed (a : Pd) : a + Pd.new_zeroed = a :=
  Pd.ext_lanes (by simp) (by simp)

/-- A single pruning step never sets a cleared flag. -/
theorem second_pass_step_mono (vd : VoiceData) (ga : Fin 4 → Bool)
    (j i : Fin 4) (h : ga i = false) : second_pass_step vd ga j i = false := by
  unfold second_pass_step
  split_ifs
  · by_cases hij : i = j
    · subst hij
      rw [Function.update_same]
    · rw [Function.update_noteq hij]
      exact h
  · exact h

/-- The pruning pass never sets a cleared flag. -/
theorem second_pass_fold_mono (vd : VoiceData) (l : List (Fin 4)) :
    ∀ (ga : Fin 4 → Bool) (i : Fin 4), ga i = false →
      (l.foldl (second_pass_step vd) ga) i = false := by
  induction l with
  | nil => intro ga i h; exact h
  | cons j tl ih =>
    intro ga i h
    rw [List.foldl_cons]
    exact ih _ i (second_pass_step_mono vd ga j i h)

/-- A flag cleared by the pruning pass was either already clear, or the
operator had no active mix out and all its modulation targets end up
cleared. -/
theorem second_pass_fold_false_src (vd : VoiceData) (l : List (Fin 4)) :
    ∀ (ga : Fin 4 → Bool) (i : Fin 4),
      (l.foldl (second_pass_step vd) ga) i = false →
      ga i = false
      ∨ (operator_mix_out_active vd i = false
          ∧ ∀ t ∈ (vd.operators i).modulation_targets,
              (l.foldl (second_pass_step vd) ga) t = false) := by
  induction l with
  | nil => intro ga i h; exact Or.inl h
  | cons j tl ih =>
    intro ga i h
    rw [List.foldl_cons] at h
    rcases ih (second_pass_step vd ga j) i h with h1 | ⟨h2a, h2b⟩
    · unfold second_pass_step at h1
      by_cases hc : (((vd.operators j).modulation_targets.all (fun t => !(ga t)))
          && (!(operator_mix_out_active vd j))) = true
      · rw [if_pos hc] at h1
        by_cases hij : i = j
        · subst hij
          rw [Bool.and_eq_true] at hc
          refine Or.inr ⟨by simpa using hc.2, fun t ht => ?_⟩
          have hgat : ga t = false := by
            have := List.all_eq_true.mp hc.1 t ht
            simpa using this
          rw [List.foldl_cons]
          exact second_pass_fold_mono vd tl _ t
            (second_pass_step_mono vd ga i t hgat)
        · rw [Function.update_noteq hij] at h1
          exact Or.inl h1
      · rw [if_neg hc] at h1
        exact Or.inl h1
    · refine Or.inr ⟨h2a, fun t ht => ?_⟩
      rw [List.foldl_cons]
      exact h2b t ht

/-- Characterization of a cleared generate-audio flag: either the first pass
already cleared it, or the operator has no active mix out and every one of
its modulation targets is cleared in the final flags. -/
theorem dependency_flags_false_cases (vd : VoiceData) (i : Fin 4)
    (h : run_operator_dependency_analysis vd i = false) :
    first_pass_generate_audio vd i = false
    ∨ (operator_mix_out_active vd i = false
        ∧ ∀ t ∈ (vd.operators i).modulation_targets,
            run_operator_dependency_analysis vd t = false) := by
  unfold run_operator_dependency_analysis at h ⊢
  exact second_pass_fold_false_src vd _ _ i h

/-- An operator with zero volume contributes zero mix out. -/
theorem gvoa_fst_eq_zero_of_volume_zero (wave : WaveType → Pd → Pd) (tau : ℚ)
    (noise : ℚ) (od : VoiceOperatorData) (modulation_inputs key_velocity : Pd)
    (h : od.volume = Pd.new_zeroed) :
    (gen_voice_operator_audio wave tau noise od modulation_inputs key_velocity).1
      = Pd.new_zeroed := by
  unfold gen_voice_operator_audio
  dsimp only
  apply Pd.ext_lanes <;> simp [h]

/-- An operator with zero volume contributes zero mod out. -/
theorem gvoa_snd_eq_zero_of_volume_zero (wave : WaveType → Pd → Pd) (tau : ℚ)
    (noise : ℚ) (od : VoiceOperatorData) (modulation_inputs key_velocity : Pd)
    (h : od.volume = Pd.new_zeroed) :
    (gen_voice_operator_audio wave tau noise od modulation_inputs key_velocity).2
      = Pd.new_zeroed := by
  unfold gen_voice_operator_audio
  dsimp only
  apply Pd.ext_lanes <;> simp [h]

/-- An operator with zero mix out parameter contributes zero mix out. -/
theorem gvoa_fst_eq_zero_of_mix_zero (wave : WaveType → Pd → Pd) (tau : ℚ)
    (noise : ℚ) (od : VoiceOperatorData) (modulation_inputs key_velocity : Pd)
    (h : od.mix_out = Pd.new_zeroed) :
    (gen_voice_operator_audio wave tau noise od modulation_inputs key_velocity).1
      = Pd.new_zeroed := by
  unfold gen_voice_operator_audio
  dsimp only
  apply Pd.ext_lanes <;> simp [h]

/-- An operator with zero mod out parameter contributes zero mod out. -/
theorem gvoa_snd_eq_zero_of_mod_zero (wave : WaveType → Pd → Pd) (tau : ℚ)
    (noise : ℚ) (od : VoiceOperatorData) (modulation_inputs key_velocity : Pd)
    (h : od.mod_out = Pd.new_zeroed) :
    (gen_voice_operator_audio wave tau noise od modulation_inputs key_velocity).2
      = Pd.new_zeroed := by
  unfold gen_voice_operator_audio
  dsimp only
  apply Pd.ext_lanes <;> simp [h]

/-- Adding the same modulation output to the same targets preserves pointwise
agreement of the input accumulators on flagged operators. -/
theorem mod_inputs_fold_agree (flags : Fin 4 → Bool) (x : Pd)
    (targets : List (Fin 4)) :
    ∀ (m m' : Fin 4 → Pd), (∀ t, flags t = true → m t = m' t) →
    ∀ t, flags t = true →
      (targets.foldl (fun acc u => Function.update acc u (acc u + x)) m) t
        = (targets.foldl (fun acc u => Function.update acc u (acc u + x)) m') t := by
  induction targets with
  | nil => intro m m' h t ht; exact h t ht
  | cons j tl ih =>
    intro m m' h t ht
    rw [List.foldl_cons, List.foldl_cons]
    refine ih _ _ (fun u hu => ?_) t ht
    by_cases huj : u = j
    · subst huj
      rw [Function.update_same, Function.update_same, h u hu]
    · rw [Function.update_noteq huj, Function.update_noteq huj]
      exact h u hu

/-- Adding a modulation output only to unflagged targets leaves the input
accumulator unchanged at every flagged operator. -/
theorem mod_inputs_fold_outside (flags : Fin 4 → Bool) (x : Pd)
    (targets : List (Fin 4)) (hts : ∀ t ∈ targets, flags t = false) :
    ∀ (m : Fin 4 → Pd) (t : Fin 4), flags t = true →
      (targets.foldl (fun acc u => Function.update acc u (acc u + x)) m) t = m t := by
  induction targets with
  | nil => intro m t _; rfl
  | cons j tl ih =>
    intro m t ht
    rw [List.foldl_cons]
    rw [ih (fun u hu => hts u (List.mem_cons_of_mem _ hu)) _ t ht]
    have hj : flags j = false := hts j (List.mem_cons_self _ _)
    have htj : t ≠ j := by
      intro e
      rw [e, hj] at ht
      exact Bool.noConfusion ht
    rw [Function.update_noteq htj]

/-- Adding a zero modulation output leaves the input accumulator unchanged. -/
theorem mod_inputs_fold_zero (targets : List (Fin 4)) :
    ∀ m : Fin 4 → Pd,
      targets.foldl (fun acc u => Function.update acc u (acc u + Pd.new_zeroed)) m
        = m := by
  induction targets with
  | nil => intro m; rfl
  | cons j tl ih =>
    intro m
    rw [List.foldl_cons]
    have h : Function.update m j (m j + Pd.new_zeroed) = m := by
      rw [Pd.add_zeroed]
      exact Function.update_eq_self j m
    rw [h, ih]

/-- Invariant induction for the operator loop: running with the computed
generate-audio flags and running with all flags set produce the same voice
mix sum (and agree on the modulation inputs of every flagged operator),
provided the volume, mix out and mod out lanes are nonnegative (as they are
for values drawn from the parameter ranges). -/
theorem gen_fold_prune_eq (wave : WaveType → Pd → Pd) (tau : ℚ)
    (noise : Fin 4 → ℚ) (key_velocity : Pd) (vd : VoiceData)
    (hnn : ∀ i : Fin 4, (vd.operators i).volume.nonneg
      ∧ (vd.operators i).mix_out.nonneg ∧ (vd.operators i).mod_out.nonneg)
    (ops : List (Fin 4)) :
    ∀ (st st' : (Fin 4 → Pd) × Pd),
      st.2 = st'.2 →
      (∀ t, run_operator_dependency_analysis vd t = true → st.1 t = st'.1 t) →
      ((ops.foldl (operator_step wave tau noise key_velocity vd
          (run_operator_dependency_analysis vd)) st).2
        = (ops.foldl (operator_step wave tau noise key_velocity vd
            (fun _ => true)) st').2)
      ∧ (∀ t, run_operator_dependency_analysis vd t = true →
          (ops.foldl (operator_step wave tau noise key_velocity vd
            (run_operator_dependency_analysis vd)) st).1 t
          = (ops.foldl (operator_step wave tau noise key_velocity vd
              (fun _ => true)) st').1 t) := by
  induction ops with
  | nil => intro st st' hmix hagree; exact ⟨hmix, hagree⟩
  | cons i tl ih =>
    intro st st' hmix hagree
    rw [List.foldl_cons, List.foldl_cons]
    by_cases hf : run_operator_dependency_analysis vd i = true
    · refine ih _ _ ?_ ?_
      · unfold operator_step
        rw [if_pos hf, if_pos rfl]
        dsimp only
        rw [hagree i hf, hmix]
      · intro t ht
        unfold operator_step
        rw [if_pos hf, if_pos rfl]
        dsimp only
        rw [hagree i hf]
        exact mod_inputs_fold_agree _ _ _ _ _ hagree t ht
    · have hff : run_operator_dependency_analysis vd i = false := by
        simpa using hf
      have hz : ((gen_voice_operator_audio wave tau (noise i) (vd.operators i)
            (st'.1 i) key_velocity).1 = Pd.new_zeroed)
          ∧ (((gen_voice_operator_audio wave tau (noise i) (vd.operators i)
              (st'.1 i) key_velocity).2 = Pd.new_zeroed)
            ∨ (∀ t ∈ (vd.operators i).modulation_targets,
                run_operator_dependency_analysis vd t = false)) := by
        rcases dependency_flags_false_cases vd i hff with hcase | ⟨hmixa, htargets⟩
        · unfold first_pass_generate_audio at hcase
          cases hvol : (vd.operators i).volume.any_over_zero with
          | false =>
            have hvz := Pd.eq_zeroed_of_nonneg_not_over (hnn i).1 hvol
            exact ⟨gvoa_fst_eq_zero_of_volume_zero _ _ _ _ _ _ hvz,
              Or.inl (gvoa_snd_eq_zero_of_volume_zero _ _ _ _ _ _ hvz)⟩
          | true =>
            rw [hvol] at hcase
            simp only [Bool.true_and] at hcase
            rw [Bool.or_eq_false_iff] at hcase
            have hmodz := Pd.eq_zeroed_of_nonneg_not_over (hnn i).2.2 hcase.1
            have hmixz := Pd.eq_zeroed_of_nonneg_not_over (hnn i).2.1 hcase.2
            exact ⟨gvoa_fst_eq_zero_of_mix_zero _ _ _ _ _ _ hmixz,
              Or.inl (gvoa_snd_eq_zero_of_mod_zero _ _ _ _ _ _ hmodz)⟩
        · have hmixz := Pd.eq_zeroed_of_nonneg_not_over (hnn i).2.1 hmixa
          exact ⟨gvoa_fst_eq_zero_of_mix_zero _ _ _ _ _ _ hmixz, Or.inr htargets⟩
      refine ih _ _ ?_ ?_
      · unfold operator_step
        rw [if_neg (by simp [hff]), if_pos rfl]
        dsimp only
        rw [hz.1, Pd.add_zeroed, hmix]
      · intro t ht
        unfold operator_step
        rw [if_neg (by simp [hff]), if_pos rfl]
        dsimp only
        rcases hz.2 with hsnd | houts
        · simp only [hsnd]
          rw [mod_inputs_fold_zero]
          exact hagree t ht
        · rw [mod_inputs_fold_outside (run_operator_dependency_analysis vd) _ _
            houts st'.1 t ht]
          exact hagree t ht

/-- C4: the set of non-pruned operators is a superset of the operators
contributing nonzero output: running the voice's operator loop with the
flags of `run_operator_dependency_analysis` (first pass
`(volume > 0) ∧ (mod_out > 0 ∨ mix_out > 0)` over the lanes, then pruning of
operators 1..3 whose modulation targets are all inactive and whose own mix
out has no lane above zero) produces exactly the same voice mix sum as
running with no pruning at all, for every wave evaluator, noise stream and
voice configuration with nonnegative volume, mix out and mod out lanes (the
values these lanes take in the parameter ranges). -/
theorem c4_dependency_analysis_superset (wave : WaveType → Pd → Pd) (tau : ℚ)
    (noise : Fin 4 → ℚ) (key_velocity : Pd) (vd : VoiceData)
    (hnn : ∀ i : Fin 4, (vd.operators i).volume.nonneg
      ∧ (vd.operators i).mix_out.nonneg ∧ (vd.operators i).mod_out.nonneg) :
    gen_voice_audio wave tau noise key_velocity vd
        (run_operator_dependency_analysis vd)
      = gen_voice_audio wave tau noise key_velocity vd (fun _ => true) := by
  unfold gen_voice_audio
  exact (gen_fold_prune_eq wave tau noise key_velocity vd hnn [3, 2, 1, 0]
    (fun _ => Pd.new_zeroed, Pd.new_zeroed) (fun _ => Pd.new_zeroed, Pd.new_zeroed)
    rfl (fun _ _ => rfl)).1

/-- A voice whose operators are all silent (all parameter lanes zero). -/
def c4_witness_voice : VoiceData :=
  { voice_index := 0
    key_velocity := Pd.new_zeroed
    master_volume := Pd.new_zeroed
    operators := fun _ =>
      { volume := Pd.new_zeroed
        mix_out := Pd.new_zeroed
        mod_out := Pd.new_zeroed
        feedback := Pd.new_zeroed
        panning := Pd.new_zeroed
        constant_power_panning := Pd.new_zeroed
        envelope_volume := Pd.new_zeroed
        phase := Pd.new_zeroed
        wave_type := WaveType.sine
        modulation_targets := []
        velocity_sensitivity_mod_out := Pd.new_zeroed
        velocity_sensitivity_feedback := Pd.new_zeroed } }

/-- C4 witness: concrete application on a voice with all lanes zero (the
nonnegativity hypotheses hold with equality). -/
theorem c4_dependency_analysis_superset_witness :
    gen_voice_audio (fun _ _ => Pd.new 1) 0 (fun _ => 0) (Pd.new 1)
        c4_witness_voice (run_operator_dependency_analysis c4_witness_voice)
      = gen_voice_audio (fun _ _ => Pd.new 1) 0 (fun _ => 0) (Pd.new 1)
          c4_witness_voice (fun _ => true) :=
  c4_dependency_analysis_superset _ _ _ _ _
    (fun _ => ⟨⟨le_refl 0, le_refl 0⟩, ⟨le_refl 0, le_refl 0⟩,
      ⟨le_refl 0, le_refl 0⟩⟩)
